import Mathlib

/-!
Verification development for a DNS-over-HTTPS ad-blocking worker
(src/index.js).  The JavaScript source is shallowly embedded: byte
buffers become `List Nat`, the JS `Map`/`Set` rule collections become
association lists / string lists in insertion order, and fallible
operations return `Except`.  All definitions are executable.
-/

/-- ASCII/Latin-1 lower-casing of one character, as JS
`String.prototype.toLowerCase` acts on code points below 256:
`A`-`Z` and `À`-`Þ` (except `×`) shift by 32, everything else in that
range is fixed. -/
def jsLowerChar (c : Char) : Char :=
  if ('A' ≤ c ∧ c ≤ 'Z') ∨ (0xC0 ≤ c.toNat ∧ c.toNat ≤ 0xDE ∧ c.toNat ≠ 0xD7) then
    Char.ofNat (c.toNat + 32)
  else c

/-- JS `domain.split('.')` on the character list: splitting an empty
string yields one empty group, and separators at the ends yield empty
groups, exactly as in JS. -/
def splitOnDot : List Char → List (List Char)
  | [] => [[]]
  | c :: rest =>
    if c = '.' then [] :: splitOnDot rest
    else
      match splitOnDot rest with
      | [] => [[c]]
      | g :: gs => (c :: g) :: gs

/-- JS `parts.join('.')`. -/
def joinDots : List (List Char) → List Char
  | [] => []
  | [g] => g
  | g :: gs => g ++ '.' :: joinDots gs

/-- The allowlist of src/index.js (`ALLOWLIST`), in source order. -/
def ALLOWLIST : List String :=
  ["google.com", "youtube.com", "facebook.com", "twitter.com",
   "instagram.com", "reddit.com", "wikipedia.org", "github.com",
   "stackoverflow.com", "amazon.com", "netflix.com", "cloudflare.com"]

/-- The blocklist of src/index.js (`BLOCKLIST`), in source order
(the source repeats 'advertising.com'; a JS `Set` deduplicates, and
list membership is unaffected by the duplicate). -/
def BLOCKLIST : List String :=
  ["doubleclick.net", "googleadservices.com", "googlesyndication.com",
   "pagead2.googlesyndication.com", "adservice.google.com", "ads.google.com",
   "google-analytics.com", "googletagmanager.com", "analytics.google.com",
   "stats.g.doubleclick.net", "ad.doubleclick.net", "pubads.g.doubleclick.net",
   "facebook.net", "connect.facebook.net", "pixel.facebook.com",
   "an.facebook.com", "graph.facebook.com",
   "adnxs.com", "advertising.com", "adsrvr.org", "smartadserver.com",
   "criteo.com", "criteo.net", "outbrain.com", "taboola.com",
   "adform.net", "advertising.com", "admob.com",
   "mixpanel.com", "api.mixpanel.com", "segment.com", "segment.io",
   "hotjar.com", "mouseflow.com", "crazyegg.com", "fullstory.com",
   "loggly.com", "bugsnag.com", "crashlytics.com", "app-measurement.com",
   "analytics.tiktok.com", "ads-api.tiktok.com", "analytics-sg.tiktok.com",
   "ads.twitter.com", "static.ads-twitter.com", "ads-api.twitter.com",
   "ads.youtube.com", "video-ad-stats.googlesyndication.com",
   "tyroo.com", "inmobi.com", "ad2iction.com", "komli.com", "vdopia.com",
   "amagi.tv", "mediaguru.com",
   "propellerads.com", "popcash.net", "popads.net", "adsterra.com",
   "exoclick.com", "juicyads.com", "hilltopads.net", "trafficjunky.com",
   "ads-service.com", "adserver.juicyads.com", "plugrush.com",
   "coinhive.com", "coin-hive.com", "jsecoin.com", "minero.cc",
   "crypto-loot.com", "cryptoloot.pro", "webmining.co",
   "malware-traffic.com", "phishing-site.com", "badware.com",
   "scorecardresearch.com", "quantserve.com", "chartbeat.com",
   "newrelic.com", "nr-data.net", "pingdom.net"]

/-- Lower-cased character list of a string, used to embed the `/i`
flag of the block patterns (all pattern literals are lower-case
ASCII, so lowering the subject is equivalent to the regex's
case-insensitive matching). -/
def lowerData (s : String) : List Char := s.data.map jsLowerChar

/-- After skipping any run of decimal digits, is the next character a
literal dot?  (Embeds the `\d*\.` tail of the first block pattern.) -/
def afterDigitsDot (l : List Char) : Bool :=
  match l.dropWhile Char.isDigit with
  | '.' :: _ => true
  | _ => false

/-- Block pattern `/^ads?\d*\./i`. -/
def patAdsDot (s : String) : Bool :=
  match lowerData s with
  | 'a' :: 'd' :: 's' :: r => afterDigitsDot r
  | 'a' :: 'd' :: r => afterDigitsDot r
  | _ => false

/-- Block patterns of the form `/^word(c?)\./i` (e.g. `/^analytics?\./i`):
the literal word, an optional final character, then a dot. -/
def patOptCharDot (w : List Char) (c : Char) (s : String) : Bool :=
  (w ++ ['.']).isPrefixOf (lowerData s) || (w ++ [c, '.']).isPrefixOf (lowerData s)

/-- Block patterns of the form `/^word/i`: a plain literal word at the
start of the domain. -/
def patStarts (w : List Char) (s : String) : Bool :=
  w.isPrefixOf (lowerData s)

/-- The delimiter class `[-\.]` of the infix block patterns. -/
def isDelim (c : Char) : Bool := c = '-' || c = '.'

/-- Does the list start with the literal word followed by a delimiter? -/
def hasWordThenDelim (w : List Char) (l : List Char) : Bool :=
  w.isPrefixOf l &&
    match l.drop w.length with
    | d :: _ => isDelim d
    | [] => false

/-- Does the list contain delimiter-word-delimiter anywhere? -/
def hasDelimWordDelim (w : List Char) : List Char → Bool
  | [] => false
  | c :: rest => (isDelim c && hasWordThenDelim w rest) || hasDelimWordDelim w rest

/-- Block patterns of the form `/[-\.]word[-\.]/i`. -/
def patDelim (w : List Char) (s : String) : Bool :=
  hasDelimWordDelim w (lowerData s)

/-- The fourteen `BLOCK_PATTERNS` of src/index.js, in source order,
each embedded as a boolean matcher equivalent to its regex. -/
def BLOCK_PATTERNS : List (String → Bool) :=
  [patAdsDot,
   patOptCharDot "analytic".data 's',
   patOptCharDot "trackin".data 'g',
   patStarts "telemetry.".data,
   patOptCharDot "metric".data 's',
   patDelim "ad".data,
   patDelim "ads".data,
   patDelim "tracker".data,
   patDelim "tracking".data,
   patStarts "advert".data,
   patStarts "banner".data,
   patStarts "click".data,
   patStarts "pixel".data,
   patStarts "tag".data]

/-- The parent-suffix strings tested by both `isAllowlisted` and
`shouldBlock` in src/index.js: `parts.slice(i).join('.')` for
`i = 1 .. parts.length - 1` (the loop bound `i < parts.length` means
the final iteration tests the last label alone). -/
def checkedSuffixes (domain : String) : List String :=
  ((List.range (splitOnDot domain.data).length).drop 1).map
    (fun i => String.mk (joinDots ((splitOnDot domain.data).drop i)))

/-- `isAllowlisted` of src/index.js, parametric in the (mutable)
allowlist: exact membership, then every checked parent suffix. -/
def isAllowlistedWith (allowL : List String) (domain : String) : Bool :=
  allowL.contains domain || (checkedSuffixes domain).any (fun p => allowL.contains p)

/-- `shouldBlock` of src/index.js, parametric in the (mutable)
blocklist and pattern list: empty domains are never blocked; exact
membership, then parent suffixes, then the patterns. -/
def shouldBlockWith (blockL : List String) (pats : List (String → Bool))
    (domain : String) : Bool :=
  if domain = "" then false
  else if blockL.contains domain then true
  else if (checkedSuffixes domain).any (fun p => blockL.contains p) then true
  else pats.any (fun p => p domain)

/-- `isAllowlisted` with the shipped allowlist. -/
def isAllowlisted (domain : String) : Bool :=
  isAllowlistedWith ALLOWLIST domain

/-- `shouldBlock` with the shipped blocklist and patterns. -/
def shouldBlock (domain : String) : Bool :=
  shouldBlockWith BLOCKLIST BLOCK_PATTERNS domain

/-- The last label of a domain (the bare TLD for a dotted name). -/
def lastLabel (domain : String) : String :=
  String.mk ((splitOnDot domain.data).getLastD [])

/-- The label-reading loop of `parseDomainFromDNS` in src/index.js.
Returns the collected labels (as byte lists, in order) and the number
of compression-pointer jumps performed.  The loop guard is
`offset < bytes.length && maxJumps > 0`; a zero length byte, an
invalid label length (> 63 outside the pointer mask), a truncated
pointer or a truncated label all end the loop, returning the labels
collected so far.  The source's `offset += 2` before `offset = pointer`
is dead (the cursor is immediately overwritten), so a pointer step
just moves to `pointer` and decrements `maxJumps`.  The structural
`fuel` argument only makes the recursion evident to Lean: callers pass
`6 * (bytes.length + 2)`, which exceeds the possible iteration count
(at most 5 jumps, and between jumps each label step advances the
cursor by at least 2 while the guard keeps it below `bytes.length`),
so the fuel-exhausted branch is unreachable from `parseDomainLabels`. -/
def parseLoop (bytes : List Nat) : Nat → Nat → Nat → List (List Nat) × Nat
  | 0, _, _ => ([], 0)
  | fuel + 1, offset, maxJumps =>
    if offset < bytes.length ∧ 0 < maxJumps then
      let len := bytes.getD offset 0
      if len = 0 then ([], 0)
      else if len &&& 0xC0 = 0xC0 then
        if bytes.length ≤ offset + 1 then ([], 0)
        else
          let ptr := ((len &&& 0x3F) <<< 8) ||| bytes.getD (offset + 1) 0
          let r := parseLoop bytes fuel ptr (maxJumps - 1)
          (r.1, r.2 + 1)
      else if 63 < len then ([], 0)
      else if bytes.length < offset + 1 + len then ([], 0)
      else
        let r := parseLoop bytes fuel (offset + 1 + len) maxJumps
        (((bytes.drop (offset + 1)).take len) :: r.1, r.2)
    else ([], 0)

/-- Labels and jump count extracted from a DNS message: the loop of
`parseDomainFromDNS` started at offset 12 with `maxJumps = 5`. -/
def parseDomainLabels (bytes : List Nat) : List (List Nat) × Nat :=
  parseLoop bytes (6 * (bytes.length + 2)) 12 5

/-- `parseDomainFromDNS` of src/index.js: messages shorter than the
12-byte header give the empty string; otherwise the collected labels
are decoded as characters (`String.fromCharCode`), joined with dots
and lower-cased. -/
def parseDomainFromDNS (bytes : List Nat) : String :=
  if bytes.length < 12 then ""
  else
    String.mk ((joinDots ((parseDomainLabels bytes).1.map
      (fun l => l.map Char.ofNat))).map jsLowerChar)

/-- `createBlockedDNSResponse` of src/index.js (the byte-level part):
allocate `query.length + 16` zeroed bytes, copy the query, then
overwrite header byte 2 with 0x81, byte 3 with 0x83 and the ANCOUNT
bytes 6 and 7 with 0.  The `domain` argument is used by the source
only for the `X-Blocked-Domain` HTTP header. -/
def createBlockedDNSResponse (query : List Nat) (domain : String) : List Nat :=
  ((((query ++ List.replicate 16 0).set 2 0x81).set 3 0x83).set 6 0).set 7 0

/-- JS `Map.get` on an insertion-ordered association list. -/
def mapGet (k : String) : List (String × Nat) → Option Nat
  | [] => none
  | (k1, v) :: rest => if k1 = k then some v else mapGet k rest

/-- JS `Map.set` on an insertion-ordered association list: an existing
key is updated in place (keeping its insertion position), a new key is
appended at the end. -/
def mapSet (m : List (String × Nat)) (k : String) (v : Nat) : List (String × Nat) :=
  match m with
  | [] => [(k, v)]
  | (k1, v1) :: rest => if k1 = k then (k, v) :: rest else (k1, v1) :: mapSet rest k v

/-- One step of the stable insertion sort embedding the JS stable
`sort((a, b) => b[1] - a[1])`: `x` is placed before the first entry
whose count is not larger, so earlier entries win ties. -/
def insertByCount (x : String × Nat) : List (String × Nat) → List (String × Nat)
  | [] => [x]
  | y :: ys => if x.2 < y.2 then y :: insertByCount x ys else x :: y :: ys

/-- Stable sort by count descending, as the JS
`[...entries].sort((a, b) => b[1] - a[1])` (JS `Array.prototype.sort`
is stable, and a stable sort for this comparator is unique). -/
def sortByCountDesc : List (String × Nat) → List (String × Nat)
  | [] => []
  | x :: xs => insertByCount x (sortByCountDesc xs)

/-- `trackBlockedDomain` of src/index.js acting on the
`topBlockedDomains` map: bump the domain's count, and if the map then
holds more than 100 entries, keep only the first 100 of the
count-descending sort. -/
def trackBlockedDomain (m : List (String × Nat)) (domain : String) :
    List (String × Nat) :=
  let m1 := mapSet m domain ((mapGet domain m).getD 0 + 1)
  if 100 < m1.length then (sortByCountDesc m1).take 100 else m1

/-- The entries discarded by `trackBlockedDomain` (empty when no
truncation happens). -/
def droppedByTrack (m : List (String × Nat)) (domain : String) :
    List (String × Nat) :=
  let m1 := mapSet m domain ((mapGet domain m).getD 0 + 1)
  if 100 < m1.length then (sortByCountDesc m1).drop 100 else []

/-- Value of a base64 alphabet character, `none` for anything else. -/
def b64Val (c : Char) : Option Nat :=
  if 'A' ≤ c ∧ c ≤ 'Z' then some (c.toNat - 65)
  else if 'a' ≤ c ∧ c ≤ 'z' then some (c.toNat - 97 + 26)
  else if '0' ≤ c ∧ c ≤ '9' then some (c.toNat - 48 + 52)
  else if c = '+' then some 62
  else if c = '/' then some 63
  else none

/-- ASCII whitespace removed by the forgiving base64 decode of `atob`. -/
def isB64Ws (c : Char) : Bool :=
  c = ' ' || c = '\t' || c = '\n' || c = '\r' || c.toNat = 12

/-- Strip up to two trailing `=` characters. -/
def stripB64Pad (l : List Char) : List Char :=
  match l.reverse with
  | '=' :: '=' :: r => r.reverse
  | '=' :: r => r.reverse
  | _ => l

/-- Decode a run of 6-bit values into bytes (a final group of two or
three values contributes one or two bytes; leftover bits are dropped). -/
def decodeB64Groups : List Nat → List Nat
  | v0 :: v1 :: v2 :: v3 :: rest =>
    ((v0 <<< 2) ||| (v1 >>> 4)) :: (((v1 &&& 15) <<< 4) ||| (v2 >>> 2)) ::
      (((v2 &&& 3) <<< 6) ||| v3) :: decodeB64Groups rest
  | [v0, v1] => [(v0 <<< 2) ||| (v1 >>> 4)]
  | [v0, v1, v2] => [(v0 <<< 2) ||| (v1 >>> 4), ((v1 &&& 15) <<< 4) ||| (v2 >>> 2)]
  | _ => []

/-- The Web platform `atob` (forgiving base64 decode): strip ASCII
whitespace, strip up to two trailing `=` when the length is a multiple
of four, then fail - modelled as `Except.error`, since `atob` throws -
if the length is 1 mod 4 or any character is outside the base64
alphabet; otherwise decode.  The source's `base64UrlDecode` has no
try/catch around its `atob` call. -/
def atob (s : String) : Except Unit (List Nat) :=
  let l0 := s.data.filter (fun c => !isB64Ws c)
  let l := if l0.length % 4 = 0 then stripB64Pad l0 else l0
  if l.length % 4 = 1 then Except.error ()
  else if l.any (fun c => (b64Val c).isNone) then Except.error ()
  else Except.ok (decodeB64Groups (l.map (fun c => (b64Val c).getD 0)))

/-- `base64UrlDecode` of src/index.js: substitute `-` with `+` and `_`
with `/`, pad with `=` to a multiple of four, then `atob`.  An `atob`
failure propagates (the function throws). -/
def base64UrlDecode (str : String) : Except Unit (List Nat) :=
  let s1 := str.data.map (fun c => if c = '-' then '+' else if c = '_' then '/' else c)
  atob (String.mk (s1 ++ List.replicate ((4 - s1.length % 4) % 4) '='))

/-- The in-memory `stats` object of src/index.js. -/
structure Stats where
  totalQueries : Nat
  blockedQueries : Nat
  allowedQueries : Nat
  topBlockedDomains : List (String × Nat)
  startTime : Nat
deriving DecidableEq

/-- What `handleDNSQuery` does with the query after classification:
forward the original bytes upstream, or answer with the synthesized
blocked response. -/
inductive DNSOutcome where
  | forwarded (query : List Nat)
  | blockedResponse (response : List Nat)
deriving DecidableEq

/-- The body of `handleDNSQuery` in src/index.js after the
`totalQueries` increment and query decoding: parse the domain, forward
on parse failure, forward counting an allowed query when allowlisted,
otherwise synthesize a blocked response (counting and tracking the
block) when `shouldBlock` fires, otherwise forward counting an allowed
query. -/
def handleParsed (allowL blockL : List String) (pats : List (String → Bool))
    (s : Stats) (dnsQuery : List Nat) : Stats × DNSOutcome :=
  let domain := parseDomainFromDNS dnsQuery
  if domain = "" then (s, DNSOutcome.forwarded dnsQuery)
  else if isAllowlistedWith allowL domain then
    ({ s with allowedQueries := s.allowedQueries + 1 }, DNSOutcome.forwarded dnsQuery)
  else if shouldBlockWith blockL pats domain then
    ({ s with blockedQueries := s.blockedQueries + 1,
              topBlockedDomains := trackBlockedDomain s.topBlockedDomains domain },
     DNSOutcome.blockedResponse (createBlockedDNSResponse dnsQuery domain))
  else
    ({ s with allowedQueries := s.allowedQueries + 1 }, DNSOutcome.forwarded dnsQuery)

/-- `handleDNSQuery` of src/index.js on the POST path (raw body bytes),
parametric in the rule sets: `totalQueries` is incremented first, then
the query is classified. -/
def handleDNSQueryWith (allowL blockL : List String) (pats : List (String → Bool))
    (s : Stats) (dnsQuery : List Nat) : Stats × DNSOutcome :=
  handleParsed allowL blockL pats { s with totalQueries := s.totalQueries + 1 } dnsQuery

/-- `handleDNSQuery` on the POST path with the shipped rule sets. -/
def handleDNSQuery (s : Stats) (dnsQuery : List Nat) : Stats × DNSOutcome :=
  handleDNSQueryWith ALLOWLIST BLOCKLIST BLOCK_PATTERNS s dnsQuery

/-- `handleDNSQuery` on the GET path (`?dns=` parameter):
`totalQueries` is incremented, the parameter is base64url-decoded, and
a decoding exception lands in the surrounding catch block, which
forwards the raw request body - empty for a GET - upstream. -/
def handleDNSQueryGET (s : Stats) (dnsParam : String) : Stats × DNSOutcome :=
  let s1 := { s with totalQueries := s.totalQueries + 1 }
  match base64UrlDecode dnsParam with
  | Except.error _ => (s1, DNSOutcome.forwarded [])
  | Except.ok bytes => handleParsed ALLOWLIST BLOCKLIST BLOCK_PATTERNS s1 bytes

/-- A cache entry as described by the spec: value bytes and an
absolute expiry time. -/
structure CacheEntry where
  value : List Nat
  expiresAt : Nat
deriving DecidableEq

/-- The bounded insertion-ordered cache store of the spec. -/
abbrev CacheStore := List (String × CacheEntry)

/-- Modelled from the spec: src/index.js has no ResolutionCache (it
delegates caching to the platform's fetch cache via `cf.cacheTtl`);
spec section 4.4 defines `set(key, value, ttlSeconds)`: if the store is
at capacity, evict the single oldest-inserted entry before inserting,
then store `{value, expiresAt: now + ttlSeconds}` at the end of the
insertion order. -/
def cacheSet (cap now ttl : Nat) (k : String) (v : List Nat) (s : CacheStore) :
    CacheStore :=
  (if cap ≤ s.length then s.drop 1 else s) ++ [(k, ⟨v, now + ttl⟩)]

/-- First entry stored under a key. -/
def cacheFind (k : String) : CacheStore → Option CacheEntry
  | [] => none
  | (k1, e) :: rest => if k1 = k then some e else cacheFind k rest

/-- Modelled from the spec: src/index.js has no ResolutionCache; spec
section 4.4 defines `get(key)`: return the value only while
`now < expiresAt`; an expired entry is treated as absent and removed.
Reads do not reorder the remaining entries. -/
def cacheGet (now : Nat) (k : String) (s : CacheStore) :
    Option (List Nat) × CacheStore :=
  match cacheFind k s with
  | none => (none, s)
  | some e =>
    if now < e.expiresAt then (some e.value, s)
    else (none, s.filter (fun p => !(p.1 == k)))

/-- The keys of a cache store, in insertion order. -/
def cacheKeys (s : CacheStore) : List String := s.map Prod.fst

/-- An upstream HTTP response as seen by `forwardToUpstream`. -/
structure UpstreamResp where
  status : Nat
  body : List Nat
deriving DecidableEq

/-- Result of `forwardToUpstream`: a passed-through upstream response,
or the literal 502 failure response built in the catch block. -/
inductive ForwardOutcome where
  | upstream (status : Nat) (body : List Nat)
  | failure (status : Nat) (message : String)
deriving DecidableEq

/-- The single upstream resolver endpoint hard-coded in src/index.js. -/
def upstreamURL : String := "https://cloudflare-dns.com/dns-query"

/-- `forwardToUpstream` of src/index.js, with the transport as an
explicit collaborator (`fetchImpl url body`, throwing modelled as
`Except.error`): one POST to the fixed upstream URL; on success the
upstream status and body are passed through, on a fetch exception the
catch block returns a 502 'DNS resolution failed' response.  The
second component records the URLs fetched during the call. -/
def forwardToUpstream (fetchImpl : String → List Nat → Except Unit UpstreamResp)
    (dnsQuery : List Nat) : ForwardOutcome × List String :=
  match fetchImpl upstreamURL dnsQuery with
  | Except.ok r => (ForwardOutcome.upstream r.status r.body, [upstreamURL])
  | Except.error _ => (ForwardOutcome.failure 502 "DNS resolution failed", [upstreamURL])

/-- A minimal DNS message whose question-section name is a single
compression pointer to offset 12, i.e. to itself. -/
def selfPointerMsg : List Nat := List.replicate 12 0 ++ [0xC0, 12]

/-- A DNS message querying the name `a` with QTYPE 28 (AAAA): 12 header
bytes, the name `01 61 00`, then the big-endian type field `00 1C`. -/
def queryTypeAAAMsg : List Nat := List.replicate 12 0 ++ [1, 97, 0, 0, 28]

/-- The same message truncated right after the name's terminating zero,
so the type field is absent. -/
def queryTypeTruncMsg : List Nat := List.replicate 12 0 ++ [1, 97, 0]

/-- A DNS message querying `ads.google.com`, which is in the shipped
`BLOCKLIST` exactly and in the shipped `ALLOWLIST` via the suffix
`google.com`. -/
def adsGoogleQuery : List Nat :=
  List.replicate 12 0 ++
    [3, 97, 100, 115, 6, 103, 111, 111, 103, 108, 101, 3, 99, 111, 109, 0]

/-- A fresh statistics record, as at worker start. -/
def stats0 : Stats := ⟨0, 0, 0, [], 0⟩

/-- 101 pairwise distinct domain strings ("0" .. "100"). -/
def domains101 : List String :=
  (List.range 101).map (fun i => String.mk (Nat.toDigits 10 i))

/-- A top-blocked map already holding 100 distinct domains, each with
count 2. -/
def m100 : List (String × Nat) :=
  (List.range 100).map (fun i => (String.mk (Nat.toDigits 10 i), 2))

example : checkedSuffixes "a.b" = ["b"] := by decide
example : isAllowlistedWith ["b"] "a.b" = true := by decide
example : shouldBlockWith ["b"] [] "a.b" = true := by decide
example : isAllowlisted "ads.google.com" = true := by decide
example : shouldBlock "ads.google.com" = true := by decide
example : shouldBlock "tracking.example.net" = true := by decide
example : shouldBlock "example.net" = false := by decide
example : lastLabel "a.b" = "b" := by decide
example :
    parseDomainFromDNS (List.replicate 12 0 ++ [3, 97, 100, 115, 6, 103, 111, 111, 103, 108, 101, 3, 99, 111, 109, 0]) =
      "ads.google.com" := by decide
example : parseDomainFromDNS (List.replicate 12 0 ++ [1, 97, 0, 0, 28]) = "a" := by decide
example : (parseDomainLabels (List.replicate 12 0 ++ [0xC0, 12])).2 = 5 := by decide
example : parseDomainFromDNS (List.replicate 12 0 ++ [0xC0, 12]) = "" := by decide
example : parseDomainFromDNS [] = "" := by decide
example : (base64UrlDecode "!").isOk = false := by decide
example : (base64UrlDecode "AAE").toOption = some [0, 1] := by decide
example : (createBlockedDNSResponse (List.replicate 12 0) "").getD 2 0 = 0x81 := by decide

/-! ## Helper lemmas -/

theorem parseLoop_jumps_le (bytes : List Nat) (fuel offset maxJumps : Nat) :
    (parseLoop bytes fuel offset maxJumps).2 ≤ maxJumps := by
  induction fuel generalizing offset maxJumps with
  | zero => simp [parseLoop]
  | succ n ih =>
    simp only [parseLoop]
    split
    · next h1 =>
      split
      · simp
      · split
        · split
          · simp
          · simpa using
              Nat.succ_le_of_lt (Nat.lt_of_le_of_lt (ih _ _) (Nat.sub_lt h1.2 Nat.one_pos))
        · split
          · simp
          · split
            · simp
            · simpa using ih _ _
    · simp

theorem getD_set_ne (l : List Nat) (i j v : Nat) (h : ¬ i = j) :
    (l.set i v).getD j 0 = l.getD j 0 := by
  simp [List.getD_eq_getElem?_getD, List.getElem?_set_ne h]

theorem getD_set_self (l : List Nat) (i v : Nat) (h : i < l.length) :
    (l.set i v).getD i 0 = v := by
  simp [List.getD_eq_getElem?_getD, List.getElem?_set_self h]

/-! ## C3: pointer jumps are bounded and extraction terminates -/

/-- C3: for every input byte sequence, the label-extraction loop
performs at most 5 compression-pointer jumps, so a message whose
pointer references itself (or forms a cycle) cannot cause unbounded
work; on the concrete self-pointing message the loop stops after
exactly 5 jumps and extraction returns the (empty) labels collected up
to that point. -/
theorem c3_pointer_jumps_bounded :
    (∀ (bytes : List Nat), (parseDomainLabels bytes).2 ≤ 5) ∧
    (parseDomainLabels selfPointerMsg).2 = 5 ∧
    parseDomainFromDNS selfPointerMsg = "" :=
  ⟨fun bytes => parseLoop_jumps_le bytes _ 12 5, by decide, by decide⟩

/-! ## C5: blocked-response header bytes -/

/-- C5 counterexample: for the all-zero 12-byte query (whose RD bit is
0), the synthesized blocked response has header byte 2 equal to 0x81,
whose RD bit (bit 0) is 1 - the original RD bit is overwritten, not
preserved, refuting the claim that byte 2's RD equals the query's RD. -/
theorem c5_rd_overwritten_counterexample :
    (createBlockedDNSResponse (List.replicate 12 0) "").getD 2 0 = 0x81 ∧
    (List.replicate 12 0 : List Nat).getD 2 0 = 0 ∧
    ¬ ((createBlockedDNSResponse (List.replicate 12 0) "").getD 2 0) % 2 =
        ((List.replicate 12 0 : List Nat).getD 2 0) % 2 := by decide

/-- C5 amended: for every raw query, the synthesized blocked response
sets header byte 2 to the constant 0x81 (QR=1 and RD forced to 1, so
RD is preserved only for queries that already had RD=1), header byte 3
to 0x83 (RA=1, RCODE=3 NXDOMAIN), and the ANCOUNT bytes 6 and 7 to 0;
the buffer is 16 bytes longer than the query. -/
theorem c5_blocked_response_header (q : List Nat) (d : String) :
    (createBlockedDNSResponse q d).getD 2 0 = 0x81 ∧
    (createBlockedDNSResponse q d).getD 3 0 = 0x83 ∧
    (createBlockedDNSResponse q d).getD 6 0 = 0 ∧
    (createBlockedDNSResponse q d).getD 7 0 = 0 ∧
    (createBlockedDNSResponse q d).length = q.length + 16 := by
  have hlen : (q ++ List.replicate 16 0).length = q.length + 16 := by
    simp [List.length_append, List.length_replicate]
  unfold createBlockedDNSResponse
  refine ⟨?_, ?_, ?_, ?_, ?_⟩
  · rw [getD_set_ne _ _ _ _ (by decide), getD_set_ne _ _ _ _ (by decide),
      getD_set_ne _ _ _ _ (by decide)]
    exact getD_set_self _ _ _ (by rw [hlen]; omega)
  · rw [getD_set_ne _ _ _ _ (by decide), getD_set_ne _ _ _ _ (by decide)]
    exact getD_set_self _ _ _ (by simp [List.length_set, hlen])
  · rw [getD_set_ne _ _ _ _ (by decide)]
    exact getD_set_self _ _ _ (by simp [List.length_set, hlen])
  · exact getD_set_self _ _ _ (by simp [List.length_set, hlen])
  · simp [List.length_set, hlen]

/-! ## C8: malformed base64 input -/

/-- C8 counterexample: on the malformed base64url input "!" the
decoder does not return an empty byte buffer - it fails (the JS
`atob` throws and `base64UrlDecode` has no handler), refuting the
claim that malformed input yields an empty buffer instead of a throw. -/
theorem c8_decoder_throws_counterexample :
    (base64UrlDecode "!").isOk = false ∧
    ¬ (base64UrlDecode "!").toOption = some [] := by decide

/-- C8 amended: for every input string on which the decoder fails
(throws), the DNS-query handler's catch block forwards the raw (empty,
for a GET) request body upstream, which is exactly the behavior of the
handler on an empty query whose parse fails - the outcome and the
statistics updates coincide. -/
theorem c8_decode_error_handled (s : Stats) (p : String) :
    (base64UrlDecode p).isOk = false →
    handleDNSQueryGET s p = handleDNSQuery s [] := by
  intro h
  unfold handleDNSQueryGET handleDNSQuery handleDNSQueryWith
  cases hd : base64UrlDecode p with
  | error e => rfl
  | ok v => rw [hd] at h; simp [Except.isOk, Except.toBool] at h

/-- C8 witness: the amended theorem applied at the malformed input "!"
and a fresh statistics record. -/
theorem c8_witness :
    (base64UrlDecode "!").isOk = false ∧
    handleDNSQueryGET stats0 "!" = handleDNSQuery stats0 [] :=
  ⟨by decide, c8_decode_error_handled stats0 "!" (by decide)⟩

/-! ## C9: no fallback resolver -/

/-- C9 counterexample: with a transport whose fetch fails, the
forwarder contacts exactly one URL (the fixed primary) and surfaces
the 502 resolution-failure response immediately - no secondary
resolver is ever contacted, refuting the claimed one-time fallback. -/
theorem c9_no_fallback_counterexample :
    (forwardToUpstream (fun _ _ => Except.error ()) []).2 = [upstreamURL] ∧
    ((forwardToUpstream (fun _ _ => Except.error ()) []).2).length = 1 ∧
    (forwardToUpstream (fun _ _ => Except.error ()) []).1 =
      ForwardOutcome.failure 502 "DNS resolution failed" :=
  ⟨rfl, rfl, rfl⟩

/-- C9 amended: every forward makes exactly one upstream request, to
the fixed Cloudflare endpoint; a successful upstream response is
passed through unchanged, and a fetch failure is surfaced directly to
the caller as the 502 resolution-failure response, with no fallback
call. -/
theorem c9_single_upstream_call
    (fetchImpl : String → List Nat → Except Unit UpstreamResp) (q : List Nat) :
    (forwardToUpstream fetchImpl q).2 = [upstreamURL] ∧
    (∀ r, fetchImpl upstreamURL q = Except.ok r →
      (forwardToUpstream fetchImpl q).1 = ForwardOutcome.upstream r.status r.body) ∧
    (∀ e, fetchImpl upstreamURL q = Except.error e →
      (forwardToUpstream fetchImpl q).1 =
        ForwardOutcome.failure 502 "DNS resolution failed") := by
  unfold forwardToUpstream
  cases h : fetchImpl upstreamURL q with
  | ok r =>
    refine ⟨rfl, ?_, ?_⟩
    · intro r2 hr; injection hr with h2; rw [h2]
    · intro e he; simp at he
  | error e =>
    refine ⟨rfl, ?_, ?_⟩
    · intro r2 hr; simp at hr
    · intro e2 he; rfl

/-- C9 witness: the amended theorem applied to a failing transport and
a one-byte query. -/
theorem c9_witness :
    (forwardToUpstream (fun _ _ => Except.error ()) [0]).2 = [upstreamURL] ∧
    (forwardToUpstream (fun _ _ => Except.error ()) [0]).1 =
      ForwardOutcome.failure 502 "DNS resolution failed" :=
  ⟨(c9_single_upstream_call (fun _ _ => Except.error ()) [0]).1,
   (c9_single_upstream_call (fun _ _ => Except.error ()) [0]).2.2 () rfl⟩

/-! ## C1: the suffix enumeration includes the bare TLD -/

theorem splitOnDot_ne_nil : ∀ (l : List Char), splitOnDot l ≠ []
  | [] => by simp [splitOnDot]
  | c :: rest => by
    simp only [splitOnDot]
    split
    · simp
    · split
      · simp
      · simp

theorem drop_length_sub_one {α : Type} :
    ∀ (l : List α) (dflt : α), l ≠ [] → l.drop (l.length - 1) = [l.getLastD dflt]
  | [], _, h => absurd rfl h
  | [a], _, _ => rfl
  | a :: b :: t, dflt, _ => by
    rw [List.getLastD_cons]
    have h1 : (a :: b :: t).length - 1 = (b :: t).length - 1 + 1 := by
      simp [List.length_cons]
    rw [h1, List.drop_succ_cons]
    exact drop_length_sub_one (b :: t) a (by simp)

theorem mem_drop_one_range (n i : Nat) (h1 : 1 ≤ i) (h2 : i < n) :
    i ∈ (List.range n).drop 1 := by
  cases n with
  | zero => omega
  | succ m =>
    rw [List.range_succ_eq_map, List.drop_one, List.tail_cons]
    exact List.mem_map.mpr ⟨i - 1, List.mem_range.mpr (by omega), by omega⟩

/-- C1 counterexample: for the two-label domain "a.b" the classifiers
of src/index.js do test the bare TLD "b" (the last label alone) for
set membership - `checkedSuffixes "a.b"` is exactly `["b"]`, and a
rule list containing only the bare TLD makes both the allowlist and
the blocklist check fire - refuting the claim that the bare TLD is
never tested. -/
theorem c1_tld_tested_counterexample :
    checkedSuffixes "a.b" = ["b"] ∧
    lastLabel "a.b" = "b" ∧
    isAllowlistedWith ["b"] "a.b" = true ∧
    shouldBlockWith ["b"] [] "a.b" = true := by decide

/-- C1 amended: the classification suffix checks enumerate the parent
suffixes from the full name down to and including the bare TLD: for
every domain of at least two labels, the last label alone is among the
tested suffixes, and its membership in the rule list alone makes
`isAllowlisted` (resp. `shouldBlock`) return true. -/
theorem c1_suffixes_include_bare_tld
    (d : String) (A B : List String) (pats : List (String → Bool))
    (hn : 2 ≤ (splitOnDot d.data).length) :
    lastLabel d ∈ checkedSuffixes d ∧
    (A.contains (lastLabel d) = true → isAllowlistedWith A d = true) ∧
    (B.contains (lastLabel d) = true → shouldBlockWith B pats d = true) := by
  have hne : splitOnDot d.data ≠ [] := splitOnDot_ne_nil d.data
  have hdne : ¬ d = "" := by
    intro h0
    rw [h0] at hn
    simp [splitOnDot] at hn
  have hmem : lastLabel d ∈ checkedSuffixes d := by
    unfold checkedSuffixes lastLabel
    refine List.mem_map.mpr ⟨(splitOnDot d.data).length - 1,
      mem_drop_one_range _ _ (by omega) (by omega), ?_⟩
    rw [drop_length_sub_one _ [] hne]
    simp [joinDots]
  refine ⟨hmem, ?_, ?_⟩
  · intro hA
    simp only [isAllowlistedWith, Bool.or_eq_true]
    exact Or.inr (List.any_eq_true.mpr ⟨lastLabel d, hmem, hA⟩)
  · intro hB
    unfold shouldBlockWith
    rw [if_neg hdne]
    by_cases hbd : B.contains d = true
    · rw [if_pos hbd]
    · rw [if_neg hbd, if_pos (List.any_eq_true.mpr ⟨lastLabel d, hmem, hB⟩)]

/-- C1 witness: the amended theorem applied at the concrete two-label
domain "a.b" with the one-entry rule list ["b"]. -/
theorem c1_witness :
    2 ≤ (splitOnDot "a.b".data).length ∧ lastLabel "a.b" ∈ checkedSuffixes "a.b" :=
  ⟨by decide, (c1_suffixes_include_bare_tld "a.b" ["b"] ["b"] [] (by decide)).1⟩

/-! ## C2: allowlist membership short-circuits every block check -/

/-- C2: for every query whose extracted domain is allowlisted (exactly
or via a parent suffix), the DNS-query handler forwards the query
upstream and counts it as allowed, whatever the blocklist and pattern
list are - in particular even if the very same domain is in the
blocklist or matches a block pattern, no block check affects the
outcome, and the blocked counters and top-blocked map are untouched. -/
theorem c2_allow_overrides_block
    (blockL : List String) (pats : List (String → Bool)) (s : Stats) (q : List Nat)
    (h : isAllowlistedWith ALLOWLIST (parseDomainFromDNS q) = true) :
    (handleDNSQueryWith ALLOWLIST blockL pats s q).2 = DNSOutcome.forwarded q ∧
    (handleDNSQueryWith ALLOWLIST blockL pats s q).1.allowedQueries = s.allowedQueries + 1 ∧
    (handleDNSQueryWith ALLOWLIST blockL pats s q).1.blockedQueries = s.blockedQueries ∧
    (handleDNSQueryWith ALLOWLIST blockL pats s q).1.topBlockedDomains = s.topBlockedDomains ∧
    (handleDNSQueryWith ALLOWLIST blockL pats s q).1.totalQueries = s.totalQueries + 1 := by
  have hne : ¬ parseDomainFromDNS q = "" := by
    intro h0
    rw [h0] at h
    exact absurd h (by decide)
  simp only [handleDNSQueryWith, handleParsed]
  rw [if_neg hne, if_pos h]
  exact ⟨rfl, rfl, rfl, rfl, rfl⟩

/-- C2 witness: the handler on a query for `ads.google.com`, a domain
that is blocklisted exactly and allowlisted via the suffix
`google.com`: the query is forwarded and counted as allowed. -/
theorem c2_witness :
    parseDomainFromDNS adsGoogleQuery = "ads.google.com" ∧
    isAllowlistedWith ALLOWLIST "ads.google.com" = true ∧
    shouldBlockWith BLOCKLIST BLOCK_PATTERNS "ads.google.com" = true ∧
    (handleDNSQuery stats0 adsGoogleQuery).2 = DNSOutcome.forwarded adsGoogleQuery ∧
    (handleDNSQuery stats0 adsGoogleQuery).1.allowedQueries = 1 := by
  refine ⟨by decide, by decide, by decide, ?_, ?_⟩
  · exact (c2_allow_overrides_block BLOCKLIST BLOCK_PATTERNS stats0 adsGoogleQuery
      (by decide)).1
  · exact (c2_allow_overrides_block BLOCKLIST BLOCK_PATTERNS stats0 adsGoogleQuery
      (by decide)).2.1

/-! ## C10: statistics accounting of the handler -/

theorem handleParsed_total (allowL blockL : List String) (pats : List (String → Bool))
    (s : Stats) (q : List Nat) :
    (handleParsed allowL blockL pats s q).1.totalQueries = s.totalQueries := by
  by_cases h1 : parseDomainFromDNS q = "" <;>
    by_cases h2 : isAllowlistedWith allowL (parseDomainFromDNS q) = true <;>
      by_cases h3 : shouldBlockWith blockL pats (parseDomainFromDNS q) = true <;>
        simp [handleParsed, h1, h2, h3]

theorem handleParsed_counts (allowL blockL : List String) (pats : List (String → Bool))
    (s : Stats) (q : List Nat) :
    (handleParsed allowL blockL pats s q).1.blockedQueries +
        (handleParsed allowL blockL pats s q).1.allowedQueries ≤
      s.blockedQueries + s.allowedQueries + 1 := by
  by_cases h1 : parseDomainFromDNS q = "" <;>
    by_cases h2 : isAllowlistedWith allowL (parseDomainFromDNS q) = true <;>
      by_cases h3 : shouldBlockWith blockL pats (parseDomainFromDNS q) = true <;>
        simp [handleParsed, h1, h2, h3] <;> omega

theorem handleParsed_parse_fail (allowL blockL : List String)
    (pats : List (String → Bool)) (s : Stats) (q : List Nat)
    (h : parseDomainFromDNS q = "") :
    handleParsed allowL blockL pats s q = (s, DNSOutcome.forwarded q) := by
  simp [handleParsed, h]

/-- C10: every invocation of the DNS-query handler (POST body path and
GET parameter path alike) increments `totalQueries` by exactly one; on
the parse-failure path neither `allowedQueries` nor `blockedQueries`
moves; the invariant `blockedQueries + allowedQueries ≤ totalQueries`
is preserved by every call, and it becomes strict after a query whose
domain fails to parse. -/
theorem c10_stats_accounting (s : Stats) (q : List Nat) :
    (handleDNSQuery s q).1.totalQueries = s.totalQueries + 1 ∧
    (∀ p : String, (handleDNSQueryGET s p).1.totalQueries = s.totalQueries + 1) ∧
    (parseDomainFromDNS q = "" →
      (handleDNSQuery s q).1.allowedQueries = s.allowedQueries ∧
      (handleDNSQuery s q).1.blockedQueries = s.blockedQueries) ∧
    (s.blockedQueries + s.allowedQueries ≤ s.totalQueries →
      (handleDNSQuery s q).1.blockedQueries + (handleDNSQuery s q).1.allowedQueries ≤
        (handleDNSQuery s q).1.totalQueries) ∧
    (parseDomainFromDNS q = "" → s.blockedQueries + s.allowedQueries ≤ s.totalQueries →
      (handleDNSQuery s q).1.blockedQueries + (handleDNSQuery s q).1.allowedQueries <
        (handleDNSQuery s q).1.totalQueries) := by
  refine ⟨?_, ?_, ?_, ?_, ?_⟩
  · exact handleParsed_total _ _ _ _ _
  · intro p
    unfold handleDNSQueryGET
    cases base64UrlDecode p with
    | error e => rfl
    | ok bytes => exact handleParsed_total _ _ _ _ _
  · intro h
    rw [show handleDNSQuery s q =
      handleParsed ALLOWLIST BLOCKLIST BLOCK_PATTERNS
        { s with totalQueries := s.totalQueries + 1 } q from rfl]
    rw [handleParsed_parse_fail _ _ _ _ _ h]
    exact ⟨rfl, rfl⟩
  · intro hinv
    have hc := handleParsed_counts ALLOWLIST BLOCKLIST BLOCK_PATTERNS
      { s with totalQueries := s.totalQueries + 1 } q
    have ht := handleParsed_total ALLOWLIST BLOCKLIST BLOCK_PATTERNS
      { s with totalQueries := s.totalQueries + 1 } q
    simp only [handleDNSQuery, handleDNSQueryWith]
    simp only [handleDNSQuery, handleDNSQueryWith] at hc ht ⊢
    omega
  · intro h hinv
    rw [show handleDNSQuery s q =
      handleParsed ALLOWLIST BLOCKLIST BLOCK_PATTERNS
        { s with totalQueries := s.totalQueries + 1 } q from rfl]
    rw [handleParsed_parse_fail _ _ _ _ _ h]
    simp only []
    omega

/-- C10 witness: a fresh statistics record and the empty (unparsable)
query: totals move, the allow/block counters do not, and the
inequality is strict afterwards. -/
theorem c10_witness :
    parseDomainFromDNS [] = "" ∧
    stats0.blockedQueries + stats0.allowedQueries ≤ stats0.totalQueries ∧
    (handleDNSQuery stats0 []).1.blockedQueries +
        (handleDNSQuery stats0 []).1.allowedQueries <
      (handleDNSQuery stats0 []).1.totalQueries :=
  ⟨by decide, by decide,
   (c10_stats_accounting stats0 []).2.2.2.2 (by decide) (by decide)⟩

/-! ## C6: the top-blocked map is capped at 100 entries -/

theorem mem_insertByCount {x : String × Nat} :
    ∀ {l : List (String × Nat)} {y : String × Nat},
      y ∈ insertByCount x l → y = x ∨ y ∈ l := by
  intro l
  induction l with
  | nil =>
    intro y hy
    simp [insertByCount] at hy
    exact Or.inl hy
  | cons z zs ih =>
    intro y hy
    simp only [insertByCount] at hy
    split at hy
    · rcases List.mem_cons.mp hy with h | h
      · exact Or.inr (List.mem_cons.mpr (Or.inl h))
      · rcases ih h with h2 | h2
        · exact Or.inl h2
        · exact Or.inr (List.mem_cons.mpr (Or.inr h2))
    · rcases List.mem_cons.mp hy with h | h
      · exact Or.inl h
      · exact Or.inr h

theorem pairwise_insertByCount {x : String × Nat} :
    ∀ {l : List (String × Nat)}, l.Pairwise (fun a b => b.2 ≤ a.2) →
      (insertByCount x l).Pairwise (fun a b => b.2 ≤ a.2) := by
  intro l
  induction l with
  | nil =>
    intro _
    simp [insertByCount]
  | cons y ys ih =>
    intro hp
    rw [List.pairwise_cons] at hp
    simp only [insertByCount]
    split
    · next hlt =>
      rw [List.pairwise_cons]
      refine ⟨?_, ih hp.2⟩
      intro b hb
      rcases mem_insertByCount hb with rfl | hbys
      · omega
      · exact hp.1 b hbys
    · next hge =>
      rw [List.pairwise_cons]
      refine ⟨?_, List.pairwise_cons.mpr hp⟩
      intro b hb
      rcases List.mem_cons.mp hb with rfl | hbys
      · omega
      · have := hp.1 b hbys
        omega

theorem pairwise_sortByCountDesc :
    ∀ (l : List (String × Nat)), (sortByCountDesc l).Pairwise (fun a b => b.2 ≤ a.2)
  | [] => by simp [sortByCountDesc]
  | x :: xs => by
    simp only [sortByCountDesc]
    exact pairwise_insertByCount (pairwise_sortByCountDesc xs)

set_option maxRecDepth 40000 in
/-- C6: after every call of the blocked-domain recording operation the
top-blocked map holds at most 100 entries; whenever entries are
discarded, every kept entry's count is at least every discarded
entry's count (the 100 highest-count entries survive); and concretely,
recording blocks for 101 distinct domains starting from the empty map
leaves exactly 100 entries. -/
theorem c6_top_blocked_capped :
    (∀ (m : List (String × Nat)) (d : String),
      (trackBlockedDomain m d).length ≤ 100 ∧
      (∀ x, x ∈ trackBlockedDomain m d → ∀ y, y ∈ droppedByTrack m d → y.2 ≤ x.2)) ∧
    (domains101.foldl trackBlockedDomain []).length = 100 := by
  constructor
  · intro m d
    constructor
    · simp only [trackBlockedDomain]
      split
      · rw [List.length_take]
        exact min_le_left _ _
      · next h => omega
    · intro x hx y hy
      simp only [trackBlockedDomain] at hx
      simp only [droppedByTrack] at hy
      by_cases h : 100 < (mapSet m d ((mapGet d m).getD 0 + 1)).length
      · rw [if_pos h] at hx hy
        have hp2 : (List.take 100 (sortByCountDesc (mapSet m d ((mapGet d m).getD 0 + 1))) ++
            List.drop 100 (sortByCountDesc (mapSet m d ((mapGet d m).getD 0 + 1)))).Pairwise
              (fun a b => b.2 ≤ a.2) := by
          rw [List.take_append_drop]
          exact pairwise_sortByCountDesc _
        exact (List.pairwise_append.mp hp2).2.2 x hx y hy
      · rw [if_neg h] at hy
        simp at hy
  · decide

set_option maxRecDepth 40000 in
/-- C6 witness: the general theorem applied to a map already holding
100 domains of count 2 and a fresh domain "x": the new entry of
count 1 is the one discarded, and its count is below the kept
counts. -/
theorem c6_witness :
    ("0", 2) ∈ trackBlockedDomain m100 "x" ∧
    ("x", 1) ∈ droppedByTrack m100 "x" ∧
    (1 : Nat) ≤ 2 :=
  ⟨by decide, by decide,
   (c6_top_blocked_capped.1 m100 "x").2 ("0", 2) (by decide) ("x", 1) (by decide)⟩

/-! ## C7: the modelled resolution cache is FIFO-bounded -/

theorem cacheKeys_cacheSet (cap now ttl : Nat) (k : String) (v : List Nat)
    (s : CacheStore) :
    cacheKeys (cacheSet cap now ttl k v s) =
      (if cap ≤ s.length then (cacheKeys s).drop 1 else cacheKeys s) ++ [k] := by
  simp only [cacheSet, cacheKeys, List.map_append]
  split
  · simp [List.map_drop]
  · simp

theorem drop_one_append {α : Type} (l r : List α) (h : l ≠ []) :
    (l ++ r).drop 1 = l.drop 1 ++ r := by
  cases l with
  | nil => exact absurd rfl h
  | cons a t => rfl

theorem fold_cacheSet_window (cap now ttl : Nat) (v : List Nat) (hcap : 0 < cap) :
    ∀ (ks : List String) (s : CacheStore), (cacheKeys s).length ≤ cap →
      cacheKeys (ks.foldl (fun st k => cacheSet cap now ttl k v st) s) =
        (cacheKeys s ++ ks).drop ((cacheKeys s ++ ks).length - cap) := by
  intro ks
  induction ks with
  | nil =>
    intro s hs
    rw [List.foldl_nil, List.append_nil]
    have h0 : (cacheKeys s).length - cap = 0 := by omega
    rw [h0, List.drop_zero]
  | cons k ks ih =>
    intro s hs
    rw [List.foldl_cons]
    have hset := cacheKeys_cacheSet cap now ttl k v s
    have hslen : (cacheKeys s).length = s.length := by
      simp [cacheKeys, List.length_map]
    by_cases hc : cap ≤ s.length
    · have hkeq : (cacheKeys s).length = cap := by omega
      have hne : cacheKeys s ≠ [] := by
        intro h0
        rw [h0] at hkeq
        simp at hkeq
        omega
      have hlen2 : (cacheKeys (cacheSet cap now ttl k v s)).length ≤ cap := by
        rw [hset, if_pos hc, List.length_append, List.length_drop]
        simp
        omega
      rw [ih _ hlen2, hset, if_pos hc]
      have hassoc : cacheKeys s ++ k :: ks = (cacheKeys s ++ [k]) ++ ks := by
        rw [List.append_assoc, List.singleton_append]
      rw [hassoc]
      have hne2 : cacheKeys s ++ [k] ≠ [] := by
        intro h0
        have := congrArg List.length h0
        simp at this
      have hd1 : ((cacheKeys s).drop 1 ++ [k]) ++ ks =
          (((cacheKeys s ++ [k]) ++ ks).drop 1) := by
        rw [drop_one_append _ _ hne2, drop_one_append _ _ hne]
      rw [hd1, List.drop_drop]
      congr 1
      simp [List.length_append, List.length_drop]
      omega
    · have hlen2 : (cacheKeys (cacheSet cap now ttl k v s)).length ≤ cap := by
        rw [hset, if_neg hc, List.length_append]
        simp
        omega
      rw [ih _ hlen2, hset, if_neg hc]
      rw [List.append_assoc, List.singleton_append]

/-- C7 (modelled from the spec, section 4.4 - src/index.js has no
resolution cache of its own): the cache is bounded and FIFO - folding
N+1 distinct keys into an empty cache of capacity N leaves exactly N
entries whose keys are, in order, the last N keys inserted, the
earliest-inserted key being the evicted one; and a read never reorders
the store (the post-read store is a sublist of the pre-read store,
shrinking only by lazy removal of an expired entry). -/
theorem c7_cache_fifo_bound :
    (∀ (N now ttl : Nat) (v : List Nat) (k0 : String) (ks : List String),
      0 < N → (k0 :: ks).Nodup → ks.length = N →
      ((k0 :: ks).foldl (fun st k => cacheSet N now ttl k v st) []).length = N ∧
      cacheKeys ((k0 :: ks).foldl (fun st k => cacheSet N now ttl k v st) []) = ks ∧
      k0 ∉ cacheKeys ((k0 :: ks).foldl (fun st k => cacheSet N now ttl k v st) [])) ∧
    (∀ (now : Nat) (k : String) (s : CacheStore), ((cacheGet now k s).2).Sublist s) := by
  constructor
  · intro N now ttl v k0 ks hN hnd hlen
    have hw := fold_cacheSet_window N now ttl v hN (k0 :: ks) [] (by simp [cacheKeys])
    have hempty : cacheKeys ([] : CacheStore) = [] := rfl
    rw [hempty, List.nil_append] at hw
    have hidx : (k0 :: ks).length - N = 1 := by
      rw [List.length_cons]
      omega
    rw [hidx, List.drop_one, List.tail_cons] at hw
    refine ⟨?_, hw, ?_⟩
    · have h2 := congrArg List.length hw
      simp only [cacheKeys, List.length_map] at h2
      omega
    · rw [hw]
      exact (List.nodup_cons.mp hnd).1
  · intro now k s
    cases h : cacheFind k s with
    | none =>
      have h2 : (cacheGet now k s).2 = s := by
        unfold cacheGet
        rw [h]
      rw [h2]
    | some e =>
      by_cases hx : now < e.expiresAt
      · have h2 : (cacheGet now k s).2 = s := by
          unfold cacheGet
          rw [h]
          show (if now < e.expiresAt then (some e.value, s)
            else (none, List.filter (fun p => !(p.1 == k)) s)).2 = s
          rw [if_pos hx]
        rw [h2]
      · have h2 : (cacheGet now k s).2 = List.filter (fun p => !(p.1 == k)) s := by
          unfold cacheGet
          rw [h]
          show (if now < e.expiresAt then (some e.value, s)
            else (none, List.filter (fun p => !(p.1 == k)) s)).2 = _
          rw [if_neg hx]
        rw [h2]
        exact List.filter_sublist s

/-- C7 witness: capacity 2, keys "a", "b", "c": two entries remain,
their keys are ["b", "c"], and the first-inserted key "a" is gone. -/
theorem c7_witness :
    ((["a", "b", "c"]).foldl (fun st k => cacheSet 2 0 300 k [7] st) []).length = 2 ∧
    cacheKeys ((["a", "b", "c"]).foldl (fun st k => cacheSet 2 0 300 k [7] st) []) =
      ["b", "c"] ∧
    "a" ∉ cacheKeys ((["a", "b", "c"]).foldl (fun st k => cacheSet 2 0 300 k [7] st) []) :=
  c7_cache_fifo_bound.1 2 0 300 [7] "a" ["b", "c"] (by decide) (by decide) rfl

/-! ## C4: the query type is never extracted -/

/-- C4 (evaluating the code at the failing input): on the message
querying name `a` with QTYPE 28 (AAAA), `parseDomainFromDNS` returns
only the domain string "a", and its output is identical on the same
message with the 16-bit type field removed - the bytes after the
name's terminating zero are never read, so no query type is returned
(contrary to the spec contract `extract(raw) -> (domain, type)`). -/
theorem c4_extract_ignores_query_type :
    parseDomainFromDNS queryTypeAAAMsg = "a" ∧
    parseDomainFromDNS queryTypeTruncMsg = "a" := by decide
